import Mathlib

/-!
A shallow embedding of claudy's session registry and background-task
coordinator (src/claudy/mcp_server.py) and of its stdio-to-HTTP bridge
(src/claudy/stdio_proxy.py), together with theorems settling the
specification's claims against the embedded code.

Conventions of the embedding:
* Python dicts keyed by strings become association lists with
  insert-or-replace (`setEntry`) and delete (`eraseEntry`); Python dicts
  preserve insertion order and have unique keys, which these operations
  respect on every reachable state.
* `datetime.now()` outputs are opaque strings passed in as parameters
  (one instant per operation invocation).
* The Claude SDK client is opaque: a connection is identified by the index
  at which its `connect()` was recorded in `Registry.openLog`, and its
  behaviour (query outcome, response stream) is an oracle `Nat → ClientBehavior`.
* Raising a Python exception is modelled with `Except`.
-/

set_option linter.unusedVariables false

namespace Claudy

/-! ### Association-list maps modelling Python dicts -/

def lookup {β : Type} : List (String × β) → String → Option β
  | [], _ => none
  | (k, v) :: rest, key => if k = key then some v else lookup rest key

/-- `m[key] = v`: replace the binding if present, else append (Python dicts
append new keys in insertion order). -/
def setEntry {β : Type} : List (String × β) → String → β → List (String × β)
  | [], key, v => [(key, v)]
  | (k, w) :: rest, key, v =>
      if k = key then (key, v) :: rest else (k, w) :: setEntry rest key v

/-- `del m[key]`: Python dict keys are unique, so removing every binding for
the key coincides with `del` on each reachable state. -/
def eraseEntry {β : Type} : List (String × β) → String → List (String × β)
  | [], _ => []
  | (k, w) :: rest, key =>
      if k = key then eraseEntry rest key else (k, w) :: eraseEntry rest key

/-- `key in m`. -/
def hasKey {β : Type} (m : List (String × β)) (k : String) : Bool :=
  (lookup m k).isSome

theorem lookup_setEntry_self {β : Type} (m : List (String × β)) (k : String) (v : β) :
    lookup (setEntry m k v) k = some v := by
  induction m with
  | nil => simp [setEntry, lookup]
  | cons hd tl ih =>
    obtain ⟨k0, w⟩ := hd
    by_cases h : k0 = k <;> simp [setEntry, lookup, h, ih]

theorem lookup_setEntry_ne {β : Type} (m : List (String × β)) (k k' : String) (v : β)
    (h : k' ≠ k) : lookup (setEntry m k v) k' = lookup m k' := by
  induction m with
  | nil => simp [setEntry, lookup, Ne.symm h]
  | cons hd tl ih =>
    obtain ⟨k0, w⟩ := hd
    by_cases h0 : k0 = k
    · subst h0
      simp [setEntry, lookup, Ne.symm h]
    · simp [setEntry, lookup, h0, ih]

theorem lookup_eraseEntry_self {β : Type} (m : List (String × β)) (k : String) :
    lookup (eraseEntry m k) k = none := by
  induction m with
  | nil => simp [eraseEntry, lookup]
  | cons hd tl ih =>
    obtain ⟨k0, w⟩ := hd
    by_cases h : k0 = k <;> simp [eraseEntry, lookup, h, ih]

theorem lookup_eraseEntry_ne {β : Type} (m : List (String × β)) (k k' : String)
    (h : k' ≠ k) : lookup (eraseEntry m k) k' = lookup m k' := by
  induction m with
  | nil => simp [eraseEntry, lookup]
  | cons hd tl ih =>
    obtain ⟨k0, w⟩ := hd
    by_cases h0 : k0 = k
    · subst h0
      simp [eraseEntry, lookup, Ne.symm h, ih]
    · simp [eraseEntry, lookup, h0, ih]

/-! ### Python truthiness for optional strings

`if parent_session_id:`, `if not fork_name:` and the like test truthiness:
`None` and the empty string are falsy, every other string truthy. -/

def optTruthy : Option String → Bool
  | none => false
  | some s => !s.isEmpty

/-! ### Session registry (mcp_server.py)

`_global_sessions : Dict[str, tuple[ClaudeSDKClient, dict]]` becomes
`Registry.sessions`; a client is the index of its `connect()` call in
`Registry.openLog`, whose entries record the `options.resume` parent (set
only when the given parent id is truthy) used at each connection open. -/

structure Metadata where
  created_at : String
  last_used : String
  message_count : Nat
  session_id : Option String
  auto_created : Bool
  /-- the "parent_session_id" key, present in the dict only when a truthy
  parent was supplied at creation. -/
  parent_session_id : Option String
deriving Repr, DecidableEq

structure Registry where
  sessions : List (String × Nat × Metadata)
  openLog : List (Option String)
deriving Repr, DecidableEq

/-- `get_or_create_session` (mcp_server.py lines 139-172): return the
existing session refreshing `last_used`, or connect a fresh client and
register it. The Python metadata dict is aliased by the map entry, so
mutations are written back to `sessions`. -/
def get_or_create_session (reg : Registry) (now : String) (name : String)
    (parent_session_id : Option String) : (Nat × Metadata) × Registry :=
  match lookup reg.sessions name with
  | some (client, metadata) =>
      let metadata := { metadata with last_used := now }
      ((client, metadata),
       { reg with sessions := setEntry reg.sessions name (client, metadata) })
  | none =>
      let resume := if optTruthy parent_session_id then parent_session_id else none
      let client := reg.openLog.length
      let metadata : Metadata :=
        { created_at := now, last_used := now, message_count := 0,
          session_id := none, auto_created := true,
          parent_session_id := resume }
      ((client, metadata),
       { sessions := setEntry reg.sessions name (client, metadata),
         openLog := reg.openLog ++ [resume] })

/-- C7: resolution is idempotent — a second sequential `get_or_create_session`
on the same name returns the same underlying connection as the first, opens
no new connection (`openLog` unchanged), refreshes `last_used` to the second
call's time, and the registry holds exactly that session under the name. -/
theorem C7_idempotent_resolution :
    ∀ (reg : Registry) (t1 t2 name : String) (p1 p2 : Option String),
      (get_or_create_session (get_or_create_session reg t1 name p1).2 t2 name p2).1.1
          = (get_or_create_session reg t1 name p1).1.1
      ∧ (get_or_create_session (get_or_create_session reg t1 name p1).2 t2 name p2).2.openLog
          = (get_or_create_session reg t1 name p1).2.openLog
      ∧ (get_or_create_session (get_or_create_session reg t1 name p1).2 t2 name p2).1.2.last_used
          = t2
      ∧ lookup (get_or_create_session (get_or_create_session reg t1 name p1).2 t2 name p2).2.sessions
            name
          = some (get_or_create_session (get_or_create_session reg t1 name p1).2 t2 name p2).1 := by
  intro reg t1 t2 name p1 p2
  rcases h : lookup reg.sessions name with _ | ⟨c, md⟩ <;>
    simp [get_or_create_session, h, lookup_setEntry_self]

/-! ### C1: concurrent first-use of one name (interleaving model)

`get_or_create_session` runs on one asyncio event loop; its only suspension
point is `await client.connect()`.  A caller therefore executes two atomic
steps for a not-yet-present name: (1) the membership check together with the
start of `connect()` (no `await` between them), and (2) after `connect()`
resumes, the assignment `_global_sessions[name] = (client, metadata)`.
Other callers (e.g. background tasks started by `claudy_call_async`) may run
between the two steps.  The model below fixes one contested name: `entry` is
the registry binding for that name, `opens` counts `ClaudeSDKClient`
connections opened, and each caller advances through its phases as the
schedule picks it. -/

inductive CallerPhase
  /-- has not yet executed the `if name in _global_sessions` check. -/
  | start
  /-- found the name absent, opened connection `client`, suspended in
  `await client.connect()`. -/
  | connecting (client : Nat)
  /-- returned from `get_or_create_session` observing connection `client`. -/
  | done (client : Nat)
deriving Repr, DecidableEq

structure RaceState where
  entry : Option Nat
  opens : Nat
  callers : List CallerPhase
deriving Repr, DecidableEq

/-- One atomic step of caller `i`, as scheduled by the event loop. -/
def raceStep (s : RaceState) (i : Nat) : RaceState :=
  match s.callers.get? i with
  | none => s
  | some .start =>
      match s.entry with
      | some c => { s with callers := s.callers.set i (.done c) }
      | none =>
          { s with opens := s.opens + 1,
                   callers := s.callers.set i (.connecting s.opens) }
  | some (.connecting c) =>
      { s with entry := some c, callers := s.callers.set i (.done c) }
  | some (.done _) => s

def raceRun (s : RaceState) (schedule : List Nat) : RaceState :=
  schedule.foldl raceStep s

/-- Initial state: the name is absent and `n` callers are about to resolve it. -/
def raceInit (n : Nat) : RaceState :=
  { entry := none, opens := 0, callers := List.replicate n .start }

/-- C1: the code has no lock around get-or-create, so two concurrent
first-use callers of the same unseen name, interleaved across the
`await client.connect()` suspension (both membership checks run before
either registration), open TWO connections and observe DIFFERENT sessions;
the second registration overwrites the first.  This refutes the claim that
exactly one connection is opened with all callers sharing it — the spec's
required atomic-creation discipline is absent from the code. -/
theorem C1_concurrent_first_use_race :
    raceRun (raceInit 2) [0, 1, 0, 1]
        = { entry := some 1, opens := 2, callers := [.done 0, .done 1] }
      ∧ (raceRun (raceInit 2) [0, 1, 0, 1]).opens ≠ 1 := by
  constructor <;> decide

/-! ### `_execute_call` (mcp_server.py lines 175-293)

The Claude SDK client is an oracle: `query` either succeeds or raises a
connection error, and `receive_response` either yields a finite list of
messages or yields a prefix and then drops the connection.  A message is
reduced to the two features the code inspects for its result: the
`session_id` attribute (`none` models both a missing attribute and a `None`
value, which the code treats alike) and the texts of its `TextBlock` content
(the verbose per-block event reshaping carries the raw messages instead of
rebuilt dicts; no claim depends on the event shape). -/

structure Msg where
  session_id : Option String
  texts : List String
deriving Repr, DecidableEq

inductive StreamBehavior
  /-- `receive_response` yields `msgs` and finishes. -/
  | completes (msgs : List Msg)
  /-- `receive_response` yields `msgs`, then raises `CLIConnectionError err`. -/
  | disconnects (msgs : List Msg) (err : String)
deriving Repr, DecidableEq

structure ClientBehavior where
  /-- `some err`: `client.query` raises a connection error. -/
  query_fails : Option String
  stream : StreamBehavior
deriving Repr, DecidableEq

/-- A Python exception escaping `_execute_call`. -/
inductive PyError
  | connectionError (msg : String)
deriving Repr, DecidableEq

/-- `str(e)` for the exceptions we model. -/
def PyError.toStr : PyError → String
  | .connectionError m => m

/-- The dict `_execute_call` returns: either a structured failure
`{"success": False, "error": ...}` (the fork precondition errors) or the
success dict. `session_id` is present only when the locally collected id is
truthy; `events` only under verbose. -/
inductive CallOutcome
  | failure (error : String)
  | success (name : String) (response : String) (session_id : Option String)
      (forked : Bool) (events : Option (List Msg))
deriving Repr, DecidableEq

/-- The local `session_id` variable after the stream loop: the value of the
first message carrying one. -/
def firstSessionId : List Msg → Option String
  | [] => none
  | m :: rest => match m.session_id with
      | some s => some s
      | none => firstSessionId rest

/-- `if not fork_name: fork_name = f"{name}_fork_{...strftime(...)}"`. -/
def resolveForkName (name : String) (fork_name : Option String) (ts : String) : String :=
  if optTruthy fork_name then fork_name.getD "" else name ++ "_fork_" ++ ts

/-- `if not parent_session_id: parent_session_id = get_current_claude_session_id()`
(the auto-detected id is an environment input of the model). -/
def parentArg (parent_session_id auto_parent : Option String) : Option String :=
  if optTruthy parent_session_id then parent_session_id else auto_parent

/-- The connection a call on `name` resolves to. -/
def clientOf (reg : Registry) (now name : String) (parent : Option String) : Nat :=
  (get_or_create_session reg now name parent).1.1

/-- `_execute_call`: fork precondition checks (returning structured failure
dicts), get-or-create, query, stream collection, metadata update, result
dict.  `ts` is the `strftime` timestamp used for synthetic fork names.
Mutations of the aliased metadata dict are written back into the registry;
note that a `session_id` learned from the stream survives a mid-stream
disconnect, while `last_used`/`message_count` are only updated after the
stream completes. -/
def _execute_call (reg : Registry) (behav : Nat → ClientBehavior)
    (auto_parent : Option String) (now ts : String)
    (name message verbosity : String) (fork : Bool)
    (fork_name parent_session_id : Option String) :
    Except PyError CallOutcome × Registry :=
  let parent0 := parentArg parent_session_id auto_parent
  let forkRes : Except CallOutcome (String × Option String) :=
    if fork then
      match lookup reg.sessions name with
      | none =>
          .error (.failure ("Cannot fork non-existent session '" ++ name ++ "'"))
      | some (_, parent_metadata) =>
          let psi := parent_metadata.session_id
          if !optTruthy psi then
            .error (.failure ("Cannot fork session '" ++ name ++
              "': no session_id available. Send at least one message first."))
          else
            let resolved := resolveForkName name fork_name ts
            if hasKey reg.sessions resolved then
              .error (.failure ("Fork session name '" ++ resolved ++ "' already exists"))
            else
              .ok (resolved, psi)
    else
      .ok (name, parent0)
  match forkRes with
  | .error res => (.ok res, reg)
  | .ok (name', parent) =>
      match get_or_create_session reg now name' parent with
      | ((client, metadata), reg1) =>
          let b := behav client
          match b.query_fails with
          | some e => (.error (.connectionError e), reg1)
          | none =>
              match b.stream with
              | .disconnects msgs e =>
                  let md1 := { metadata with
                    session_id := metadata.session_id <|> firstSessionId msgs }
                  (.error (.connectionError e),
                   { reg1 with sessions := setEntry reg1.sessions name' (client, md1) })
              | .completes msgs =>
                  let sid := firstSessionId msgs
                  let md1 := { metadata with
                    session_id := metadata.session_id <|> sid }
                  let md2 := { md1 with
                    last_used := now, message_count := md1.message_count + 1 }
                  let response := String.intercalate "\n" (msgs.map Msg.texts).flatten
                  let events := if verbosity = "verbose" then some msgs else none
                  (.ok (.success name' response
                          (if optTruthy sid then sid else none) fork events),
                   { reg1 with sessions := setEntry reg1.sessions name' (client, md2) })

/-- `claudy_call` (mcp_server.py lines 296-337): awaits `_execute_call` and
JSON-serialises the result dict (serialisation is injective on the outcomes
modelled, so the embedding returns the outcome).  There is no `try`/`except`:
an exception raised below propagates out of the tool function. -/
def claudy_call (reg : Registry) (behav : Nat → ClientBehavior)
    (auto_parent : Option String) (now ts : String)
    (name message verbosity : String) (fork : Bool)
    (fork_name parent_session_id : Option String) :
    Except PyError CallOutcome × Registry :=
  _execute_call reg behav auto_parent now ts name message verbosity fork
    fork_name parent_session_id

/-! ### Background task coordinator (`_background_tasks`, mcp_server.py)

`claudy_call_async` stores `asyncio.create_task(_execute_call(...))` under
the name; `claudy_get_results` awaits tracked tasks.  A tracked task is
modelled by the time until it settles (`remaining`, in seconds; `0` means
already done), what it settles with (`outcome`: the `_execute_call` dict, or
the exception it raises), and whether it has been cancelled.

`asyncio.wait_for(task, timeout)` follows asyncio's documented semantics:
if the task finishes within the (positive) timeout its outcome is delivered;
a non-positive timeout delivers only an already-finished task; otherwise
wait_for CANCELS the task and raises `TimeoutError`.  Awaiting a task that
is already cancelled raises `asyncio.CancelledError`, which since Python 3.8
derives from `BaseException`, so neither `except asyncio.TimeoutError` nor
`except Exception` in `claudy_get_results` catches it: it aborts the whole
tool call (modelled as the `Except.error` result of the collect). -/

instance {ε α : Type} [DecidableEq ε] [DecidableEq α] : DecidableEq (Except ε α) :=
  fun a b =>
    match a, b with
    | .ok x, .ok y =>
        if h : x = y then .isTrue (h ▸ rfl)
        else .isFalse (fun hc => h (Except.ok.inj hc))
    | .error x, .error y =>
        if h : x = y then .isTrue (h ▸ rfl)
        else .isFalse (fun hc => h (Except.error.inj hc))
    | .ok _, .error _ => .isFalse (fun hc => Except.noConfusion hc)
    | .error _, .ok _ => .isFalse (fun hc => Except.noConfusion hc)

structure BgTask where
  remaining : Nat
  outcome : Except PyError CallOutcome
  cancelled : Bool
deriving Repr, DecidableEq

abbrev TaskMap := List (String × BgTask)

/-- One `results[name]` value built by `claudy_get_results`: the awaited
result dict, or one of the three structured failure dicts its handlers
build. -/
inductive ResultEntry
  /-- `results[name] = result` -/
  | collected (r : CallOutcome)
  /-- `{"success": False, "error": f"No background task found for '{name}'"}` -/
  | notFound (name : String)
  /-- `{"success": False, "error": f"Task '{name}' timed out after {timeout} seconds",
  "status": "timeout"}` -/
  | timedOut (name : String) (timeout : Int)
  /-- `{"success": False, "error": f"Task '{name}' failed: {str(e)}",
  "status": "error"}` -/
  | failed (name : String) (msg : String)
deriving Repr, DecidableEq

/-- What awaiting a tracked task delivers. -/
inductive AwaitRes
  /-- the task settled; its outcome (result or raised exception) is delivered. -/
  | delivered (o : Except PyError CallOutcome)
  /-- `asyncio.wait_for` raised `TimeoutError` (and cancelled the task). -/
  | timedOutR
  /-- the task was already cancelled: awaiting it raises `CancelledError`. -/
  | cancelledErr
deriving Repr, DecidableEq

/-- `await asyncio.wait_for(task, timeout=tmo)` for integer `tmo ≠ 0`. -/
def wait_for (t : BgTask) (tmo : Int) : AwaitRes :=
  if t.cancelled then .cancelledErr
  else if t.remaining = 0 ∨ (0 < tmo ∧ (t.remaining : Int) ≤ tmo) then .delivered t.outcome
  else .timedOutR

/-- `await task` with no timeout. -/
def awaitTask (t : BgTask) : AwaitRes :=
  if t.cancelled then .cancelledErr else .delivered t.outcome

/-- `if timeout: await wait_for(...) else: await task` — the truthiness
test on the optional integer timeout. -/
def awaitChoice (t : BgTask) (timeout : Option Int) : AwaitRes :=
  match timeout with
  | some tmo => if tmo ≠ 0 then wait_for t tmo else awaitTask t
  | none => awaitTask t

/-- One iteration of the `for name in names` loop of `claudy_get_results`
(mcp_server.py lines 425-456): the produced `results[name]` entry (or the
escaping `CancelledError`, as `.error ()`) and the task map afterwards.
On timeout the task is NOT removed from the map — only the `wait_for`
cancellation marks it — while delivered outcomes (success or raised
exception) delete the entry. -/
def collectStep (tasks : TaskMap) (timeout : Option Int) (name : String) :
    Except Unit ResultEntry × TaskMap :=
  match lookup tasks name with
  | none => (.ok (.notFound name), tasks)
  | some t =>
      match awaitChoice t timeout with
      | .delivered (.ok r) => (.ok (.collected r), eraseEntry tasks name)
      | .delivered (.error e) =>
          (.ok (.failed name e.toStr), eraseEntry tasks name)
      | .timedOutR =>
          (.ok (.timedOut name (timeout.getD 0)),
           setEntry tasks name { t with cancelled := true })
      | .cancelledErr => (.error (), tasks)

/-- The `for` loop of `claudy_get_results`: threads the task map through the
names, accumulating the `results` dict; a `CancelledError` aborts the loop
(the map mutations made so far persist in the global dict, the local
`results` are lost). -/
def collectGo (timeout : Option Int) :
    List String → TaskMap → List (String × ResultEntry) →
      Except Unit (List (String × ResultEntry)) × TaskMap
  | [], tasks, acc => (.ok acc, tasks)
  | n :: rest, tasks, acc =>
      match collectStep tasks timeout n with
      | (.ok entry, tasks') => collectGo timeout rest tasks' (setEntry acc n entry)
      | (.error _, tasks') => (.error (), tasks')

/-- `claudy_get_results` (mcp_server.py lines 387-462), up to the final JSON
wrapping `{"success": True, "results": results}`. -/
def claudy_get_results (names : List String) (timeout : Option Int)
    (tasks : TaskMap) :
    Except Unit (List (String × ResultEntry)) × TaskMap :=
  collectGo timeout names tasks []

/-! ### Protocol bridge (`stdio_proxy.py`)

`_handle_stdio_loop` reads stdin line by line.  A line is either malformed
JSON (`json.loads` raises, giving the parse-error response) or a parsed
request object, reduced to what the dispatch inspects: `method`, `id`, and
oracles for the one remote call the method triggers (`client.list_tools()`
for `tools/list`, `client.call_tool(...)` for `tools/call`), each of which
may raise — the inner `except Exception` turns that into the internal-error
response.  `initialize` builds a fixed local response and cannot raise.
Request ids are opaque JSON values, modelled as optional strings (`None`
when the key is absent).  The input ends with EOF, modelled by the end of
the list. -/

structure ToolDesc where
  name : String
  description : String
  inputSchema : String
deriving Repr, DecidableEq

inductive InLine
  | badJson (err : String)
  | request (method : Option String) (id : Option String)
      (list_tools : Except String (List ToolDesc))
      (call_tool : Except String String)
deriving Repr, DecidableEq

/-- `f"Method not found: {method}"` interpolates the Python value:
`str(None)` is `"None"`. -/
def methodStr : Option String → String
  | none => "None"
  | some s => s

/-- One JSON-RPC response line written to stdout. -/
inductive Response
  /-- the fixed `initialize` result (protocolVersion 2024-11-05, serverInfo
  claudy 0.1.0). -/
  | initOk (id : Option String)
  | toolsListOk (id : Option String) (tools : List ToolDesc)
  /-- `{"content": [{"type": "text", "text": text}]}`. -/
  | toolsCallOk (id : Option String) (text : String)
  | err (id : Option String) (code : Int) (message : String)
deriving Repr, DecidableEq

/-- The inner `try`/`except` around the method dispatch. -/
def handle_request (method : Option String) (id : Option String)
    (list_tools : Except String (List ToolDesc))
    (call_tool : Except String String) : Response :=
  if method = some "initialize" then .initOk id
  else if method = some "tools/list" then
    match list_tools with
    | .ok tools => .toolsListOk id tools
    | .error e => .err id (-32603) ("Internal error: " ++ e)
  else if method = some "tools/call" then
    match call_tool with
    | .ok data => .toolsCallOk id data
    | .error e => .err id (-32603) ("Internal error: " ++ e)
  else .err id (-32601) ("Method not found: " ++ methodStr method)

/-- `_handle_stdio_loop` (stdio_proxy.py lines 14-133): one response per
input line; a malformed line answers with the parse error under a null id;
EOF (the end of the list) breaks the loop cleanly. -/
def _handle_stdio_loop : List InLine → List Response
  | [] => []
  | .badJson e :: rest =>
      .err none (-32700) ("Parse error: " ++ e) :: _handle_stdio_loop rest
  | .request method id lt ct :: rest =>
      handle_request method id lt ct :: _handle_stdio_loop rest

/-! ### Bridge startup retries (`run_stdio_proxy`, stdio_proxy.py lines 136-158) -/

def max_retries : Nat := 5

inductive ProxyExit
  /-- the `return` after a successful connection's stdio loop finishes. -/
  | returned
  /-- `sys.exit(code)`. -/
  | exited (code : Nat)
deriving Repr, DecidableEq

/-- Observable behaviour of one run: the `asyncio.sleep` durations in order,
the stderr lines in order, and how the function ended. -/
structure ProxyRun where
  sleeps : List Nat
  stderr : List String
  exit : ProxyExit
deriving Repr, DecidableEq

def retryMsg (attempt retry_delay : Nat) : String :=
  "Connection attempt " ++ toString (attempt + 1) ++ " failed, retrying in " ++
    toString retry_delay ++ "s..."

def exhaustedMsg (e : String) : String :=
  "Failed to connect to HTTP daemon after " ++ toString max_retries ++ " attempts: " ++ e

/-- The `for attempt in range(max_retries)` loop from iteration `attempt`
on, with the current `retry_delay`.  `attempts i = some err` means the i-th
`try` body raises `err` (connection failure, or an exception escaping the
connected stdio loop — both land in the same `except`); `none` means it
runs to the `return`. -/
def runFrom (attempts : Nat → Option String) (attempt retry_delay : Nat) : ProxyRun :=
  if attempt < max_retries then
    match attempts attempt with
    | none => ⟨[], [], .returned⟩
    | some e =>
        if h : attempt < max_retries - 1 then
          let rest := runFrom attempts (attempt + 1) (retry_delay * 2)
          ⟨retry_delay :: rest.sleeps, retryMsg attempt retry_delay :: rest.stderr,
            rest.exit⟩
        else
          ⟨[], [exhaustedMsg e], .exited 1⟩
  else ⟨[], [], .returned⟩
termination_by max_retries - attempt
decreasing_by omega

def run_stdio_proxy (attempts : Nat → Option String) : ProxyRun :=
  runFrom attempts 0 1

/-! ### Theorems about the coordinator: C10 -/

def ResultEntry.isTimedOut : ResultEntry → Bool
  | .timedOut _ _ => true
  | _ => false

theorem awaitChoice_zero (t : BgTask) : awaitChoice t (some 0) = awaitChoice t none := by
  simp [awaitChoice]

theorem collectStep_zero (tasks : TaskMap) (n : String) :
    collectStep tasks (some 0) n = collectStep tasks none n := by
  unfold collectStep
  rcases lookup tasks n with _ | t <;> simp [awaitChoice_zero]

theorem collectGo_zero (names : List String) :
    ∀ tasks acc, collectGo (some 0) names tasks acc = collectGo none names tasks acc := by
  induction names with
  | nil => intro tasks acc; rfl
  | cons n rest ih =>
    intro tasks acc
    rw [collectGo, collectGo, collectStep_zero]
    rcases collectStep tasks none n with ⟨entry, tasks'⟩
    rcases entry with _ | e
    · rfl
    · exact ih tasks' (setEntry acc n e)

theorem collectStep_none_not_timedOut (tasks : TaskMap) (n : String)
    (e : ResultEntry) (m : TaskMap) (h : collectStep tasks none n = (.ok e, m)) :
    e.isTimedOut = false := by
  unfold collectStep at h
  rcases hl : lookup tasks n with _ | t <;> rw [hl] at h
  · simp at h
    simp [← h.1, ResultEntry.isTimedOut]
  · simp only [awaitChoice] at h
    unfold awaitTask at h
    by_cases hc : t.cancelled <;> rcases ho : t.outcome with r | err <;>
        simp [hc, ho] at h <;> simp [← h.1, ResultEntry.isTimedOut]

theorem all_setEntry {β : Type} (p : String × β → Bool) (m : List (String × β))
    (k : String) (v : β) (hm : m.all p = true) (hv : p (k, v) = true) :
    (setEntry m k v).all p = true := by
  induction m with
  | nil => simp [setEntry, hv]
  | cons hd tl ih =>
    obtain ⟨k0, w⟩ := hd
    simp only [List.all_cons, Bool.and_eq_true] at hm
    by_cases h0 : k0 = k <;>
      simp [setEntry, h0, hv, hm.1, hm.2, ih hm.2]

theorem collectGo_none_no_timedOut (names : List String) :
    ∀ tasks acc rs m, (acc.all fun p => !p.2.isTimedOut) = true →
      collectGo none names tasks acc = (.ok rs, m) →
      (rs.all fun p => !p.2.isTimedOut) = true := by
  induction names with
  | nil =>
    intro tasks acc rs m hacc h
    rw [collectGo] at h
    injection h with h1 h2
    injection h1 with h1
    exact h1 ▸ hacc
  | cons n rest ih =>
    intro tasks acc rs m hacc h
    rw [collectGo] at h
    rcases hstep : collectStep tasks none n with ⟨entry, tasks'⟩
    rw [hstep] at h
    rcases entry with _ | e
    · simp at h
    · have he : e.isTimedOut = false := collectStep_none_not_timedOut tasks n e tasks' hstep
      exact ih tasks' (setEntry acc n e) rs m
        (all_setEntry _ acc n e hacc (by simp [he])) h

def exOutcome : CallOutcome := .success "a" "done" none false none

def exTasksNeg : TaskMap := [("a", ⟨5, .ok exOutcome, false⟩)]

/-- C10 counterexample: with `timeout = -1` — which is truthy but not
strictly positive — collecting a pending task still produces the `TimedOut`
entry, refuting "a TimedOut result is possible only when the supplied
timeout is strictly positive". -/
theorem C10_counterexample_negative_timeout :
    (claudy_get_results ["a"] (some (-1)) exTasksNeg).1
        = .ok [("a", .timedOut "a" (-1))]
      ∧ ¬ (0 : Int) < -1 := by
  constructor
  · rfl
  · decide

/-- C10 (amended): `timeout=0` is falsy, so the coordinator behaves exactly
as if no timeout were given and a no-timeout collect never produces a
`TimedOut` entry; but a `TimedOut` entry is possible for any truthy
(nonzero) timeout, including negative ones, not only strictly positive
ones. -/
theorem C10_zero_timeout_waits_forever :
    (∀ names tasks, claudy_get_results names (some 0) tasks
        = claudy_get_results names none tasks)
    ∧ (∀ names tasks rs m, claudy_get_results names none tasks = (.ok rs, m) →
        (rs.all fun p => !p.2.isTimedOut) = true) := by
  constructor
  · intro names tasks
    exact collectGo_zero names tasks []
  · intro names tasks rs m h
    exact collectGo_none_no_timedOut names tasks [] rs m (by simp) h

/-! ### Theorems about the bridge: C8, C9 -/

/-- C8: line dispatch of the bridge loop — an unsupported method answers
with code -32601 under the request's id; an unparseable line answers with
code -32700 under a null id; an exception from forwarding `tools/list` or
`tools/call` answers with code -32603 under the request's id; in each case
the loop then continues with the remaining lines; end of input terminates
the loop cleanly ([] ↦ []); and every input line is answered by exactly one
response. -/
theorem C8_bridge_error_dispatch :
    (∀ rest m i lt ct, m ≠ some "initialize" → m ≠ some "tools/list" →
        m ≠ some "tools/call" →
        _handle_stdio_loop (.request m i lt ct :: rest)
          = .err i (-32601) ("Method not found: " ++ methodStr m)
              :: _handle_stdio_loop rest)
    ∧ (∀ rest e, _handle_stdio_loop (.badJson e :: rest)
        = .err none (-32700) ("Parse error: " ++ e) :: _handle_stdio_loop rest)
    ∧ (∀ rest i e ct,
        _handle_stdio_loop (.request (some "tools/list") i (.error e) ct :: rest)
          = .err i (-32603) ("Internal error: " ++ e) :: _handle_stdio_loop rest)
    ∧ (∀ rest i lt e,
        _handle_stdio_loop (.request (some "tools/call") i lt (.error e) :: rest)
          = .err i (-32603) ("Internal error: " ++ e) :: _handle_stdio_loop rest)
    ∧ _handle_stdio_loop [] = []
    ∧ (∀ lines, (_handle_stdio_loop lines).length = lines.length) := by
  refine ⟨?_, ?_, ?_, ?_, rfl, ?_⟩
  · intro rest m i lt ct h1 h2 h3
    simp [_handle_stdio_loop, handle_request, h1, h2, h3]
  · intro rest e
    rfl
  · intro rest i e ct
    simp [_handle_stdio_loop, handle_request]
  · intro rest i lt e
    simp [_handle_stdio_loop, handle_request]
  · intro lines
    induction lines with
    | nil => rfl
    | cons l rest ih =>
      cases l <;> simp [_handle_stdio_loop, ih]

theorem runFrom_congr (a a' : Nat → Option String) :
    ∀ k attempt d, max_retries - attempt ≤ k →
      (∀ i, i < max_retries → a i = a' i) →
      runFrom a attempt d = runFrom a' attempt d := by
  intro k
  induction k with
  | zero =>
    intro attempt d hk h
    rw [runFrom]
    conv_rhs => rw [runFrom]
    have hlt : ¬ attempt < max_retries := by omega
    simp [hlt]
  | succ k ih =>
    intro attempt d hk h
    rw [runFrom]
    conv_rhs => rw [runFrom]
    by_cases hlt : attempt < max_retries
    · have ha := h attempt hlt
      rw [ha]
      rcases a' attempt with _ | e
      · simp [hlt]
      · by_cases h2 : attempt < max_retries - 1
        · simp only [hlt, if_true, h2, dif_pos]
          rw [ih (attempt + 1) (d * 2) (by omega) h]
        · simp [hlt, h2]
    · simp [hlt]

/-- C9: bridge startup retries — when all five connection attempts fail the
run sleeps 1, 2, 4 and 8 seconds between consecutive attempts, writes the
per-attempt diagnostics and the final failure diagnostic to stderr, and
terminates via `sys.exit(1)`; and the loop consults at most the first
`max_retries = 5` attempt outcomes (runs that agree on those five attempts
behave identically, i.e. there is never a sixth attempt). -/
theorem C9_startup_bounded_backoff :
    (∀ attempts e0 e1 e2 e3 e4,
        attempts 0 = some e0 → attempts 1 = some e1 → attempts 2 = some e2 →
        attempts 3 = some e3 → attempts 4 = some e4 →
        run_stdio_proxy attempts
          = ⟨[1, 2, 4, 8],
             [retryMsg 0 1, retryMsg 1 2, retryMsg 2 4, retryMsg 3 8,
              exhaustedMsg e4],
             .exited 1⟩)
    ∧ (∀ a a', (∀ i, i < max_retries → a i = a' i) →
        run_stdio_proxy a = run_stdio_proxy a') := by
  constructor
  · intro attempts e0 e1 e2 e3 e4 h0 h1 h2 h3 h4
    unfold run_stdio_proxy
    rw [runFrom, h0]
    simp only [max_retries]
    norm_num
    rw [runFrom, h1]
    simp only [max_retries]
    norm_num
    rw [runFrom, h2]
    simp only [max_retries]
    norm_num
    rw [runFrom, h3]
    simp only [max_retries]
    norm_num
    rw [runFrom, h4]
    simp [max_retries]
  · intro a a' h
    exact runFrom_congr a a' max_retries 0 1 (by omega) h

/-! ### Theorems about the coordinator: C2, C3 -/

/-- A tracked, not-yet-finished task: one claudy_call_async result pending
10 more seconds. -/
def exTasksPending : TaskMap := [("a", ⟨10, .ok exOutcome, false⟩)]

/-- C2 counterexample: the first collect of "a" times out (timeout 1s,
task needs 10s) — so "a" was collected with a timeout outcome — yet "a" is
STILL in the coordinator's tracking map afterwards (the `except
asyncio.TimeoutError` branch has no `del`), and the second collect call on
"a" does not report NotFound.  This refutes "for every name collected ...
timeout ... the name is removed from the coordinator's tracking map". -/
theorem C2_counterexample_timeout_still_tracked :
    (claudy_get_results ["a"] (some 1) exTasksPending).1
        = .ok [("a", .timedOut "a" 1)]
      ∧ hasKey (claudy_get_results ["a"] (some 1) exTasksPending).2 "a" = true
      ∧ (claudy_get_results ["a"] (some 1)
            (claudy_get_results ["a"] (some 1) exTasksPending).2).1
          ≠ .ok [("a", .notFound "a")] := by
  refine ⟨rfl, rfl, ?_⟩
  decide

/-- C2 (amended): collection is at-most-once only for delivered outcomes —
a name whose task completed or raised is removed from tracking and a second
collect on it reports NotFound; but a name whose collect TIMED OUT remains
in the tracking map (with its task cancelled by `wait_for`), and a second
collect on it does not report NotFound: it aborts with the escaping
`CancelledError`. -/
theorem C2_at_most_once_amended :
    ∀ (tasks : TaskMap) (n : String) (tmo : Int) (t : BgTask) (r : CallOutcome)
      (e : PyError),
      (lookup tasks n = none →
        claudy_get_results [n] (some tmo) tasks = (.ok [(n, .notFound n)], tasks))
      ∧ (lookup tasks n = some t → t.cancelled = false → tmo ≠ 0 →
          (t.remaining = 0 ∨ 0 < tmo ∧ (t.remaining : Int) ≤ tmo) →
          t.outcome = .ok r →
          claudy_get_results [n] (some tmo) tasks
              = (.ok [(n, .collected r)], eraseEntry tasks n)
            ∧ ∀ tmo2, (claudy_get_results [n] tmo2 (eraseEntry tasks n)).1
                = .ok [(n, .notFound n)])
      ∧ (lookup tasks n = some t → t.cancelled = false → tmo ≠ 0 →
          (t.remaining = 0 ∨ 0 < tmo ∧ (t.remaining : Int) ≤ tmo) →
          t.outcome = .error e →
          claudy_get_results [n] (some tmo) tasks
              = (.ok [(n, .failed n e.toStr)], eraseEntry tasks n)
            ∧ ∀ tmo2, (claudy_get_results [n] tmo2 (eraseEntry tasks n)).1
                = .ok [(n, .notFound n)])
      ∧ (lookup tasks n = some t → t.cancelled = false → tmo ≠ 0 →
          ¬ (t.remaining = 0 ∨ 0 < tmo ∧ (t.remaining : Int) ≤ tmo) →
          claudy_get_results [n] (some tmo) tasks
              = (.ok [(n, .timedOut n tmo)],
                 setEntry tasks n { t with cancelled := true })
            ∧ lookup (setEntry tasks n { t with cancelled := true }) n
                = some { t with cancelled := true }
            ∧ ∀ tmo2, (claudy_get_results [n] tmo2
                  (setEntry tasks n { t with cancelled := true })).1 = .error ()) := by
  intro tasks n tmo t r e
  refine ⟨?_, ?_, ?_, ?_⟩
  · intro h
    simp [claudy_get_results, collectGo, collectStep, awaitChoice, h, setEntry]
  · intro ht hc h0 hd hr
    constructor
    · simp [claudy_get_results, collectGo, collectStep, awaitChoice, ht, wait_for, hc, h0, hd,
        hr, setEntry]
    · intro tmo2
      simp [claudy_get_results, collectGo, collectStep, awaitChoice, lookup_eraseEntry_self,
        setEntry]
  · intro ht hc h0 hd hr
    constructor
    · simp [claudy_get_results, collectGo, collectStep, awaitChoice, ht, wait_for, hc, h0, hd,
        hr, setEntry]
    · intro tmo2
      simp [claudy_get_results, collectGo, collectStep, awaitChoice, lookup_eraseEntry_self,
        setEntry]
  · intro ht hc h0 hnd
    refine ⟨?_, lookup_setEntry_self .., ?_⟩
    · simp [claudy_get_results, collectGo, collectStep, awaitChoice, ht, wait_for, hc, h0, hnd,
        setEntry]
    · intro tmo2
      rcases tmo2 with _ | z
      · simp [claudy_get_results, collectGo, collectStep, awaitChoice, lookup_setEntry_self,
          awaitTask]
      · by_cases hz : z = 0
        · simp [claudy_get_results, collectGo, collectStep, awaitChoice, lookup_setEntry_self,
            awaitTask, hz]
        · simp [claudy_get_results, collectGo, collectStep, awaitChoice, lookup_setEntry_self,
            wait_for, hz]

/-- C3 counterexample: the collect that times out on "a" leaves "a"'s task
CANCELLED in the map — `asyncio.wait_for` cancels the awaited task when the
deadline elapses — refuting "the task keeps running to completion after the
collect call returns (abandon, don't cancel)". -/
theorem C3_counterexample_timeout_cancels_task :
    lookup (claudy_get_results ["a"] (some 1) exTasksPending).2 "a"
        = some ⟨10, .ok exOutcome, true⟩
      ∧ (⟨10, .ok exOutcome, true⟩ : BgTask).cancelled = true := by
  exact ⟨rfl, rfl⟩

/-- C3 (amended): when the per-name deadline elapses the coordinator
reports a `TimedOut` entry for that name, but the underlying task does not
keep running: `asyncio.wait_for` cancels it, and the cancelled task is what
remains tracked.  (General statement, plus the concrete run of the
counterexample scenario.) -/
theorem C3_timeout_reports_and_cancels :
    (∀ (tasks : TaskMap) (n : String) (t : BgTask) (tmo : Int),
        lookup tasks n = some t → t.cancelled = false →
        0 < tmo → tmo < (t.remaining : Int) →
        claudy_get_results [n] (some tmo) tasks
          = (.ok [(n, .timedOut n tmo)],
             setEntry tasks n { t with cancelled := true }))
    ∧ claudy_get_results ["a"] (some 1) exTasksPending
        = (.ok [("a", .timedOut "a" 1)], [("a", ⟨10, .ok exOutcome, true⟩)]) := by
  constructor
  · intro tasks n t tmo ht hc hpos hlt
    have h0 : tmo ≠ 0 := by omega
    have hnd : ¬ (t.remaining = 0 ∨ 0 < tmo ∧ (t.remaining : Int) ≤ tmo) := by
      push_neg
      constructor
      · intro hr0
        rw [hr0] at hlt
        simp at hlt
        omega
      · intro _
        omega
    simp [claudy_get_results, collectGo, collectStep, awaitChoice, ht, wait_for, hc, h0, hnd,
      setEntry]
  · rfl

/-! ### Theorems about the call path: C4, C5 -/

/-- C4 counterexample: a mid-stream disconnect makes `claudy_call` RAISE the
connection error out of the tool function — the result is the propagated
exception, not a structured `{"success": False, ...}` dict — refuting "the
operation returns a structured failure result ... and no Registry/Coordinator
error is ever thrown across the session boundary to the caller". -/
theorem C4_counterexample_sync_error_thrown :
    (claudy_call ⟨[], []⟩
        (fun _ => ⟨none, .disconnects [⟨none, ["partial"]⟩] "Connection closed"⟩)
        none "t0" "ts0" "a" "hello" "normal" false none none).1
      = .error (.connectionError "Connection closed") := by
  rfl

/-- C4 (amended): a connection failure surfaces differently on the two
paths.  On the synchronous path (`claudy_call`/`_execute_call`) the error
propagates as a raised exception — carrying no payload, so the partial text
collected before the disconnect is discarded and never reported as partial
success — and other sessions' registry entries are untouched.  Only the
background path (`claudy_get_results`) converts a task's raised connection
error into the structured failure dict for its caller. -/
theorem C4_connection_failure_paths :
    (∀ reg behav auto now ts name message verbosity parent e,
        (behav (clientOf reg now name (parentArg parent auto))).query_fails = some e →
        (_execute_call reg behav auto now ts name message verbosity false
            none parent).1
          = .error (.connectionError e))
    ∧ (∀ reg behav auto now ts name message verbosity parent msgs err,
        (behav (clientOf reg now name (parentArg parent auto))).query_fails = none →
        (behav (clientOf reg now name (parentArg parent auto))).stream
            = .disconnects msgs err →
        (_execute_call reg behav auto now ts name message verbosity false
            none parent).1
          = .error (.connectionError err))
    ∧ (∀ reg behav auto now ts name message verbosity parent name2,
        name2 ≠ name →
        lookup ((_execute_call reg behav auto now ts name message verbosity false
            none parent).2).sessions name2
          = lookup reg.sessions name2)
    ∧ (∀ (tasks : TaskMap) (n : String) (t : BgTask) (m : String),
        lookup tasks n = some t → t.cancelled = false →
        t.outcome = .error (.connectionError m) →
        claudy_get_results [n] none tasks
          = (.ok [(n, .failed n m)], eraseEntry tasks n)) := by
  refine ⟨?_, ?_, ?_, ?_⟩
  · intro reg behav auto now ts name message verbosity parent e hq
    unfold _execute_call
    simp only [Bool.false_eq_true, if_false]
    rcases hg : get_or_create_session reg now name (parentArg parent auto)
      with ⟨⟨client, metadata⟩, reg1⟩
    have hcl : clientOf reg now name (parentArg parent auto) = client := by
      rw [clientOf, hg]
    rw [hcl] at hq
    simp [hq]
  · intro reg behav auto now ts name message verbosity parent msgs err hq hs
    unfold _execute_call
    simp only [Bool.false_eq_true, if_false]
    rcases hg : get_or_create_session reg now name (parentArg parent auto)
      with ⟨⟨client, metadata⟩, reg1⟩
    have hcl : clientOf reg now name (parentArg parent auto) = client := by
      rw [clientOf, hg]
    rw [hcl] at hq
    rw [hcl] at hs
    simp [hq, hs]
  · intro reg behav auto now ts name message verbosity parent name2 hne
    unfold _execute_call
    simp only [Bool.false_eq_true, if_false]
    rcases hg : get_or_create_session reg now name (parentArg parent auto)
      with ⟨⟨client, metadata⟩, reg1⟩
    have hreg1 : ∀ v, lookup (setEntry reg.sessions name v) name2
        = lookup reg.sessions name2 := fun v => lookup_setEntry_ne _ _ _ _ hne
    have hr1 : lookup reg1.sessions name2 = lookup reg.sessions name2 := by
      unfold get_or_create_session at hg
      rcases hl : lookup reg.sessions name with _ | v <;> rw [hl] at hg <;>
        simp at hg <;> rw [← hg.2] <;> simp [hreg1]
    have hsetne : ∀ (m : List (String × Nat × Metadata)) v,
        lookup (setEntry m name v) name2 = lookup m name2 :=
      fun m v => lookup_setEntry_ne m name name2 v hne
    rcases (behav client).query_fails with _ | e
    · rcases (behav client).stream with msgs | ⟨msgs, err⟩
      · exact (hsetne _ _).trans hr1
      · exact (hsetne _ _).trans hr1
    · exact hr1
  · intro tasks n t m ht hc hr
    simp [claudy_get_results, collectGo, collectStep, awaitChoice, ht, awaitTask, hc, hr,
      setEntry, PyError.toStr]

/-- A registry for concrete fork runs: "src" has completed an exchange
(session_id "sid-1"), "taken" has not. -/
def exReg : Registry :=
  ⟨[("src", (0, ⟨"t0", "t0", 1, some "sid-1", true, none⟩)),
    ("taken", (1, ⟨"t0", "t0", 0, none, true, none⟩))],
   [none, none]⟩

/-- A client oracle whose connections always succeed with an empty stream. -/
def exBehav : Nat → ClientBehavior := fun _ => ⟨none, .completes []⟩

/-- C5: fork preconditions and effects, exactly as the code orders them —
`NotFound` for an absent source; `ForkSourceIncomplete` when the source has
no session_id yet; `NameCollision` when the resolved fork name already
exists (each returning the structured failure without touching the
registry); otherwise a new session is created under the resolved fork name,
whose connection is opened with the source's `session_id` as parent and
whose metadata records it as `parent_session_id`; and a missing fork name
is derived as `<source>_fork_<timestamp>`. -/
theorem C5_fork_preconditions :
    ∀ (reg : Registry) (behav : Nat → ClientBehavior) (auto : Option String)
      (now ts name message verbosity : String) (fn parent : Option String)
      (c : Nat) (md : Metadata),
      (lookup reg.sessions name = none →
        _execute_call reg behav auto now ts name message verbosity true fn parent
          = (.ok (.failure ("Cannot fork non-existent session '" ++ name ++ "'")),
             reg))
      ∧ (lookup reg.sessions name = some (c, md) →
          optTruthy md.session_id = false →
          _execute_call reg behav auto now ts name message verbosity true fn parent
            = (.ok (.failure ("Cannot fork session '" ++ name ++
                "': no session_id available. Send at least one message first.")),
               reg))
      ∧ (lookup reg.sessions name = some (c, md) →
          optTruthy md.session_id = true →
          hasKey reg.sessions (resolveForkName name fn ts) = true →
          _execute_call reg behav auto now ts name message verbosity true fn parent
            = (.ok (.failure ("Fork session name '" ++ resolveForkName name fn ts ++
                "' already exists")), reg))
      ∧ (lookup reg.sessions name = some (c, md) →
          optTruthy md.session_id = true →
          hasKey reg.sessions (resolveForkName name fn ts) = false →
          ((_execute_call reg behav auto now ts name message verbosity true fn
              parent).2.openLog
            = reg.openLog ++ [md.session_id])
          ∧ ∃ c' md',
              lookup (_execute_call reg behav auto now ts name message verbosity
                  true fn parent).2.sessions (resolveForkName name fn ts)
                = some (c', md')
              ∧ md'.parent_session_id = md.session_id)
      ∧ resolveForkName name none ts = name ++ "_fork_" ++ ts
      ∧ (_execute_call exReg exBehav none "t1" "TS" "nosuch" message verbosity
            true none none).1
          = .ok (.failure "Cannot fork non-existent session 'nosuch'")
      ∧ (_execute_call exReg exBehav none "t1" "TS" "taken" message verbosity
            true none none).1
          = .ok (.failure ("Cannot fork session 'taken': no session_id " ++
              "available. Send at least one message first."))
      ∧ (_execute_call exReg exBehav none "t1" "TS" "src" message verbosity
            true (some "taken") none).1
          = .ok (.failure "Fork session name 'taken' already exists")
      ∧ lookup (_execute_call exReg exBehav none "t1" "TS" "src" message "normal"
            true none none).2.sessions "src_fork_TS"
          = some (2, ⟨"t1", "t1", 1, none, true, some "sid-1"⟩)
      ∧ (_execute_call exReg exBehav none "t1" "TS" "src" message "normal"
            true none none).2.openLog
          = [none, none, some "sid-1"] := by
  intro reg behav auto now ts name message verbosity fn parent c md
  refine ⟨?_, ?_, ?_, ?_, by simp [resolveForkName, optTruthy], rfl, rfl, rfl,
    rfl, rfl⟩
  · intro h
    unfold _execute_call
    rw [h]
    simp
  · intro h1 h2
    unfold _execute_call
    rw [h1]
    simp [h2]
  · intro h1 h2 h3
    unfold _execute_call
    rw [h1]
    simp [h2, h3]
  · intro h1 h2 h3
    have hl : lookup reg.sessions (resolveForkName name fn ts) = none := by
      rcases hll : lookup reg.sessions (resolveForkName name fn ts) with _ | v
      · rfl
      · simp [hasKey, hll] at h3
    have hres : get_or_create_session reg now (resolveForkName name fn ts)
        md.session_id
        = ((reg.openLog.length,
            ⟨now, now, 0, none, true, md.session_id⟩),
           ⟨setEntry reg.sessions (resolveForkName name fn ts)
              (reg.openLog.length, ⟨now, now, 0, none, true, md.session_id⟩),
            reg.openLog ++ [md.session_id]⟩) := by
      unfold get_or_create_session
      rw [hl]
      simp [h2]
    unfold _execute_call
    rw [h1]
    simp only [h2, h3, Bool.not_true, Bool.false_eq_true, Bool.true_eq_false,
      if_false, if_true]
    rw [hres]
    rcases (behav reg.openLog.length).query_fails with _ | e
    · rcases (behav reg.openLog.length).stream with msgs | ⟨msgs, err⟩ <;>
        exact ⟨rfl, _, _, lookup_setEntry_self .., rfl⟩
    · exact ⟨rfl, _, _, lookup_setEntry_self .., rfl⟩

/-! ### Theorems about the coordinator: C6 -/

/-- Every tracked task is live (not cancelled by an earlier timed-out
collect). -/
def allLive (tasks : TaskMap) : Bool :=
  tasks.all fun p => !p.2.cancelled

/-- The entry `claudy_get_results` would produce for `n` if it were the only
requested name (the `.error` fallback is unreachable for live tasks). -/
def soloEntry (tasks : TaskMap) (tmo : Option Int) (n : String) : ResultEntry :=
  match (collectStep tasks tmo n).1 with
  | .ok e => e
  | .error _ => .notFound n

theorem allLive_lookup (tasks : TaskMap) (k : String) (t : BgTask)
    (ha : allLive tasks = true) (hl : lookup tasks k = some t) :
    t.cancelled = false := by
  induction tasks with
  | nil => simp [lookup] at hl
  | cons hd tl ih =>
    obtain ⟨k0, t0⟩ := hd
    simp only [allLive, List.all_cons, Bool.and_eq_true] at ha
    by_cases h0 : k0 = k
    · rw [lookup, if_pos h0] at hl
      injection hl with hl
      subst hl
      simpa using ha.1
    · rw [lookup, if_neg h0] at hl
      exact ih (by simpa [allLive] using ha.2) hl

theorem collectStep_live_ok (tasks : TaskMap) (tmo : Option Int) (n : String)
    (hlive : ∀ t, lookup tasks n = some t → t.cancelled = false) :
    (collectStep tasks tmo n).1 = .ok (soloEntry tasks tmo n)
    ∧ ∀ k, k ≠ n → lookup (collectStep tasks tmo n).2 k = lookup tasks k := by
  rcases hl : lookup tasks n with _ | t
  · constructor
    · simp [collectStep, awaitChoice, soloEntry, hl]
    · intro k hk
      simp [collectStep, awaitChoice, hl]
  · have hc := hlive t hl
    have hera := fun k (hk : k ≠ n) => lookup_eraseEntry_ne tasks n k hk
    have hset := fun (v : BgTask) k (hk : k ≠ n) => lookup_setEntry_ne tasks n k v hk
    rcases tmo with _ | z
    · rcases ho : t.outcome with r | e <;>
        exact ⟨by simp [collectStep, awaitChoice, soloEntry, hl, awaitTask, hc, ho],
          fun k hk => by simp [collectStep, awaitChoice, hl, awaitTask, hc, ho, hera k hk]⟩
    · by_cases hz : z = 0
      · subst hz
        rcases ho : t.outcome with r | e <;>
          exact ⟨by simp [collectStep, awaitChoice, soloEntry, hl, awaitTask, hc, ho],
            fun k hk => by simp [collectStep, awaitChoice, hl, awaitTask, hc, ho, hera k hk]⟩
      · by_cases hd : t.remaining = 0 ∨ 0 < z ∧ (t.remaining : Int) ≤ z
        · rcases ho : t.outcome with r | e <;>
            exact ⟨by simp [collectStep, awaitChoice, soloEntry, hl, wait_for, hc, hz, hd, ho],
              fun k hk => by simp [collectStep, awaitChoice, hl, wait_for, hc, hz, hd, ho, hera k hk]⟩
        · exact ⟨by simp [collectStep, awaitChoice, soloEntry, hl, wait_for, hc, hz, hd],
            fun k hk => by simp [collectStep, awaitChoice, hl, wait_for, hc, hz, hd, hset _ k hk]⟩

theorem collectStep_congr_fst (tasks tasks0 : TaskMap) (tmo : Option Int)
    (n : String) (h : lookup tasks n = lookup tasks0 n) :
    (collectStep tasks tmo n).1 = (collectStep tasks0 tmo n).1 := by
  unfold collectStep
  rw [h]
  rcases lookup tasks0 n with _ | t
  · rfl
  · dsimp only
    rcases awaitChoice t tmo with o | _ | _
    · rcases o with r | e <;> rfl
    · rfl
    · rfl

theorem soloEntry_congr (tasks tasks0 : TaskMap) (tmo : Option Int) (n : String)
    (h : lookup tasks n = lookup tasks0 n) :
    soloEntry tasks tmo n = soloEntry tasks0 tmo n := by
  unfold soloEntry
  rw [collectStep_congr_fst tasks tasks0 tmo n h]

theorem collectGo_solo (names : List String) :
    ∀ (tasks tasks0 : TaskMap) (acc : List (String × ResultEntry)) (tmo : Option Int),
      names.Nodup →
      (∀ k, k ∈ names → lookup tasks k = lookup tasks0 k) →
      (∀ k, k ∈ names → ∀ t, lookup tasks k = some t → t.cancelled = false) →
      (collectGo tmo names tasks acc).1
        = .ok (names.foldl (fun a m => setEntry a m (soloEntry tasks0 tmo m)) acc) := by
  induction names with
  | nil => intro tasks tasks0 acc tmo hnd hsame hlive; rfl
  | cons n rest ih =>
    intro tasks tasks0 acc tmo hnd hsame hlive
    obtain ⟨hnotmem, hndrest⟩ := List.nodup_cons.mp hnd
    have hne : ∀ k, k ∈ rest → k ≠ n := by
      intro k hk he
      exact hnotmem (he ▸ hk)
    obtain ⟨hstep1, hstep2⟩ :=
      collectStep_live_ok tasks tmo n (hlive n (List.mem_cons_self n rest))
    rw [collectGo]
    rcases hst : collectStep tasks tmo n with ⟨e1, tasks'⟩
    rw [hst] at hstep1 hstep2
    simp only at hstep1
    subst hstep1
    simp only [List.foldl_cons]
    rw [soloEntry_congr tasks tasks0 tmo n (hsame n (List.mem_cons_self n rest))]
    exact ih tasks' tasks0 _ tmo hndrest
      (fun k hk => (hstep2 k (hne k hk)).trans (hsame k (List.mem_cons_of_mem n hk)))
      (fun k hk t ht =>
        hlive k (List.mem_cons_of_mem n hk) t ((hstep2 k (hne k hk)) ▸ ht))

theorem lookup_foldl_setEntry (f : String → ResultEntry) :
    ∀ (names : List String) (acc : List (String × ResultEntry)) (n : String),
      lookup (names.foldl (fun a m => setEntry a m (f m)) acc) n
        = if n ∈ names then some (f n) else lookup acc n := by
  intro names
  induction names with
  | nil => intro acc n; simp
  | cons m rest ih =>
    intro acc n
    simp only [List.foldl_cons, ih]
    by_cases hr : n ∈ rest
    · simp [hr]
    · by_cases hm : n = m
      · subst hm
        simp [hr, lookup_setEntry_self]
      · simp [hr, hm, lookup_setEntry_ne acc m n _ hm]

/-- Tasks for the C6 counterexample and examples: "b" needs 10s, "c" is
already done. -/
def exTasksBC : TaskMap :=
  [("b", ⟨10, .ok exOutcome, false⟩), ("c", ⟨0, .ok exOutcome, false⟩)]

/-- C6 counterexample: after an earlier collect of "b" timed out ("b"'s task
is cancelled but still tracked), a collect call over ["b", "c"] returns NO
result map at all — awaiting the cancelled "b" raises `CancelledError`,
which escapes both `except` clauses and aborts the whole call — even though
"c" is tracked and already completed.  This refutes "the returned map
contains one entry per requested name ... one name's failure or timeout does
not prevent the remaining names in the same call from being collected" as a
statement over every reachable collect call. -/
theorem C6_counterexample_cancelled_aborts_batch :
    (claudy_get_results ["b", "c"] (some 5)
        (claudy_get_results ["b"] (some 1) exTasksBC).2).1 = .error ()
      ∧ hasKey (claudy_get_results ["b"] (some 1) exTasksBC).2 "c" = true := by
  exact ⟨rfl, rfl⟩

/-- Tasks where "a" is already done and "b" needs 10s. -/
def exTasksAB : TaskMap :=
  [("a", ⟨0, .ok exOutcome, false⟩), ("b", ⟨10, .ok exOutcome, false⟩)]

/-- Tasks where both names need 5s each. -/
def exTasksFiveFive : TaskMap :=
  [("a", ⟨5, .ok exOutcome, false⟩), ("b", ⟨5, .ok exOutcome, false⟩)]

/-- C6 (amended): for distinct names over live tracked tasks, fan-in is
independent per name — the collect returns a map holding, for every
requested name, exactly the entry that name would get if collected alone on
the same coordinator state (untracked names get NotFound), and the timeout
bound applies per name: collecting ["a", "b"] where "a" is done and "b"
exceeds the timeout yields "a"'s success payload next to "b"'s TimedOut
entry, and two 5-second tasks both succeed under a 5-second per-name
timeout.  However a name whose task was cancelled by an earlier timed-out
collect aborts the whole call (see the counterexample), so liveness of the
requested tasks is a necessary proviso. -/
theorem C6_fan_in_per_name :
    (∀ (names : List String) (tmo : Option Int) (tasks : TaskMap),
        names.Nodup → allLive tasks = true →
        (claudy_get_results names tmo tasks).1
          = .ok (names.foldl (fun a m => setEntry a m (soloEntry tasks tmo m)) []))
    ∧ (∀ (names : List String) (tmo : Option Int) (f : String → ResultEntry) (n : String),
        lookup (names.foldl (fun a m => setEntry a m (f m)) []) n
          = if n ∈ names then some (f n) else none)
    ∧ (∀ (tasks : TaskMap) (tmo : Option Int) (n : String),
        lookup tasks n = none → soloEntry tasks tmo n = .notFound n)
    ∧ (∀ (tasks : TaskMap) (tmo : Int) (n : String) (t : BgTask) (r : CallOutcome),
        lookup tasks n = some t → t.cancelled = false → 0 < tmo →
        (t.remaining : Int) ≤ tmo → t.outcome = .ok r →
        soloEntry tasks (some tmo) n = .collected r)
    ∧ (∀ (tasks : TaskMap) (tmo : Int) (n : String) (t : BgTask),
        lookup tasks n = some t → t.cancelled = false → 0 < tmo →
        tmo < (t.remaining : Int) →
        soloEntry tasks (some tmo) n = .timedOut n tmo)
    ∧ (claudy_get_results ["a", "b"] (some 1) exTasksAB).1
        = .ok [("a", .collected exOutcome), ("b", .timedOut "b" 1)]
    ∧ (claudy_get_results ["a", "b"] (some 5) exTasksFiveFive).1
        = .ok [("a", .collected exOutcome), ("b", .collected exOutcome)] := by
  refine ⟨?_, ?_, ?_, ?_, ?_, rfl, rfl⟩
  · intro names tmo tasks hnd ha
    exact collectGo_solo names tasks tasks [] tmo hnd (fun k _ => rfl)
      (fun k _ t ht => allLive_lookup tasks k t ha ht)
  · intro names tmo f n
    simpa using lookup_foldl_setEntry f names [] n
  · intro tasks tmo n h
    simp [soloEntry, collectStep, awaitChoice, h]
  · intro tasks tmo n t r ht hc hpos hle hr
    have hd : t.remaining = 0 ∨ 0 < tmo ∧ (t.remaining : Int) ≤ tmo := .inr ⟨hpos, hle⟩
    have hz : tmo ≠ 0 := by omega
    simp [soloEntry, collectStep, awaitChoice, ht, wait_for, hc, hz, hd, hr]
  · intro tasks tmo n t ht hc hpos hlt
    have hz : tmo ≠ 0 := by omega
    have hnd : ¬ (t.remaining = 0 ∨ 0 < tmo ∧ (t.remaining : Int) ≤ tmo) := by
      push_neg
      refine ⟨?_, fun _ => by omega⟩
      intro hr0
      rw [hr0] at hlt
      simp at hlt
      omega
    simp [soloEntry, collectStep, awaitChoice, ht, wait_for, hc, hz, hnd]

end Claudy
